import Mathlib

/-!
Verification of the command-dispatch core of the manestream-bot repository.

The development shallowly embeds `core/registry.py` (CommandRegistry:
register, unregister, get_command, check_cooldown, set_cooldown,
handle_command), `core/permissions.py` (check_permission) and the admin-list
handling of `config.py`.  Python dicts are modelled as association lists with
string keys, `time.time()` values as rationals, `str.lower()` as per-character
ASCII lowering, and exceptions as `Except` values.
-/

attribute [local semireducible] Rat.add Rat.sub Rat.mul

namespace ManestreamBot

/-! ### Characters and lowercasing -/

theorem char_toNat_ofNat {m : Nat} (h : m.isValidChar) : (Char.ofNat m).toNat = m := by
  rw [Char.ofNat, dif_pos h]; rfl

theorem char_toLower_not_upper (c : Char) :
    ¬((c.toLower).toNat ≥ 65 ∧ (c.toLower).toNat ≤ 90) := by
  unfold Char.toLower
  by_cases h : c.toNat ≥ 65 ∧ c.toNat ≤ 90
  · rw [if_pos h, char_toNat_ofNat (Or.inl (by omega))]
    omega
  · rw [if_neg h]; exact h

theorem char_toLower_idem (c : Char) : (c.toLower).toLower = c.toLower := by
  have h := char_toLower_not_upper c
  generalize hd : c.toLower = d at h ⊢
  unfold Char.toLower
  rw [if_neg h]

/-- Model of Python's `str.lower()`: lower every character. -/
def pyLower (s : String) : String := ⟨s.data.map Char.toLower⟩

theorem pyLower_idem (s : String) : pyLower (pyLower s) = pyLower s := by
  unfold pyLower
  have h : ∀ l : List Char, (l.map Char.toLower).map Char.toLower = l.map Char.toLower := by
    intro l
    induction l with
    | nil => rfl
    | cons c cs ih => simp [ih, char_toLower_idem]
  exact congrArg String.mk (h s.data)

/-! ### Python dicts as association lists -/

/-- A Python dict with string keys. -/
abbrev Dict (β : Type) : Type := List (String × β)

/-- Dict lookup (`d[k]` guarded by `k in d`, or `d.get(k)`). -/
def dget {β : Type} : Dict β → String → Option β
  | [], _ => none
  | (k1, v1) :: rest, k => if k1 = k then some v1 else dget rest k

/-- Dict assignment `d[k] = v`: overwrite in place, or append a new entry. -/
def dinsert {β : Type} : Dict β → String → β → Dict β
  | [], k, v => [(k, v)]
  | (k1, v1) :: rest, k, v =>
    if k1 = k then (k, v) :: rest else (k1, v1) :: dinsert rest k v

/-- Dict deletion `del d[k]`. -/
def derase {β : Type} : Dict β → String → Dict β
  | [], _ => []
  | (k1, v1) :: rest, k =>
    if k1 = k then derase rest k else (k1, v1) :: derase rest k

@[simp] theorem dget_nil {β : Type} (k : String) : dget ([] : Dict β) k = none := rfl

theorem dget_dinsert {β : Type} (d : Dict β) (k : String) (v : β) (k' : String) :
    dget (dinsert d k v) k' = if k' = k then some v else dget d k' := by
  induction d with
  | nil =>
    simp only [dinsert, dget]
    by_cases h : k = k'
    · subst h; simp
    · rw [if_neg h, if_neg (fun hh => h hh.symm)]
  | cons p rest ih =>
    obtain ⟨k1, v1⟩ := p
    simp only [dinsert]
    by_cases h1 : k1 = k
    · subst h1
      rw [if_pos rfl]
      simp only [dget]
      by_cases h2 : k1 = k'
      · subst h2; simp
      · rw [if_neg h2, if_neg (fun hh => h2 hh.symm), if_neg h2]
    · rw [if_neg h1]
      simp only [dget]
      by_cases h2 : k1 = k'
      · subst h2
        rw [if_pos rfl, if_pos rfl, if_neg (fun hh => h1 hh)]
      · rw [if_neg h2, if_neg h2, ih]

theorem dget_derase {β : Type} (d : Dict β) (k : String) (k' : String) :
    dget (derase d k) k' = if k' = k then none else dget d k' := by
  induction d with
  | nil => simp [derase]
  | cons p rest ih =>
    obtain ⟨k1, v1⟩ := p
    simp only [derase]
    by_cases h1 : k1 = k
    · subst h1
      rw [if_pos rfl, ih]
      simp only [dget]
      by_cases h2 : k' = k1
      · simp [h2]
      · rw [if_neg h2, if_neg h2, if_neg (fun hh => h2 hh.symm)]
    · rw [if_neg h1]
      simp only [dget]
      by_cases h2 : k1 = k'
      · subst h2
        rw [if_pos rfl, if_pos rfl, if_neg (fun hh => h1 hh)]
      · rw [if_neg h2, if_neg h2, ih]

theorem dget_mem {β : Type} {d : Dict β} {k : String} {v : β} (h : dget d k = some v) :
    (k, v) ∈ d := by
  induction d with
  | nil => simp [dget] at h
  | cons p rest ih =>
    obtain ⟨k1, v1⟩ := p
    simp only [dget] at h
    by_cases h1 : k1 = k
    · rw [if_pos h1] at h
      obtain rfl := Option.some.inj h
      subst h1
      exact List.mem_cons_self _ _
    · rw [if_neg h1] at h
      exact List.mem_cons_of_mem _ (ih h)

/-! ### Permissions (`core/permissions.py`, `config.py`) -/

/-- The five-level `IntEnum` from `core/permissions.py`. -/
inductive PermissionLevel
  | EVERYONE
  | REGISTERED
  | TRUSTED
  | ADMIN
  | OWNER
deriving DecidableEq

/-- The numeric value of each enum member. -/
def PermissionLevel.toNat : PermissionLevel → Nat
  | .EVERYONE => 0
  | .REGISTERED => 1
  | .TRUSTED => 2
  | .ADMIN => 3
  | .OWNER => 4

/-- `Config.is_admin`: membership of the lowercased username in the admin list. -/
def is_admin (adminUsers : List String) (username : String) : Bool :=
  adminUsers.contains (pyLower username)

/-- `check_permission` from `core/permissions.py`, parametrised by the
configured admin list (`config.ADMIN_USERS`). -/
def check_permission (adminUsers : List String) (username : String)
    (required_level : PermissionLevel) : Bool :=
  if required_level = .OWNER then
    match adminUsers with
    | [] => false
    | a0 :: _ => pyLower username == a0
  else if required_level = .ADMIN then
    is_admin adminUsers (pyLower username)
  else if required_level = .TRUSTED then
    is_admin adminUsers (pyLower username)
  else if required_level = .REGISTERED then
    true
  else
    true

/-! ### Registry data model (`core/registry.py`) -/

/-- `CommandInfo` dataclass.  The opaque handler callable is represented by a
numeric identity so that distinct registrations are distinguishable. -/
structure CommandInfo where
  name : String
  handlerId : Nat
  description : String
  usage : String
  aliases : List String
  permission : PermissionLevel
  module : String
  hidden : Bool
  cooldown : Int
deriving DecidableEq

/-- The mutable state of a `CommandRegistry` instance. -/
structure RegistryState where
  commands : Dict CommandInfo
  aliases : Dict String
  cooldowns : Dict (Dict ℚ)
  modules : Dict (List String)
deriving DecidableEq

/-- A fresh `CommandRegistry()`. -/
def emptyRegistry : RegistryState :=
  { commands := [], aliases := [], cooldowns := [], modules := [] }

/-- A Python exception escaping the modelled code. -/
inductive PyErr
  | keyError (k : String)
deriving DecidableEq

instance {ε α : Type} [DecidableEq ε] [DecidableEq α] : DecidableEq (Except ε α) := fun a b =>
  match a, b with
  | .ok x, .ok y =>
    if h : x = y then isTrue (congrArg Except.ok h)
    else isFalse (fun hh => h (Except.ok.inj hh))
  | .error x, .error y =>
    if h : x = y then isTrue (congrArg Except.error h)
    else isFalse (fun hh => h (Except.error.inj hh))
  | .ok _, .error _ => isFalse (fun hh => Except.noConfusion hh)
  | .error _, .ok _ => isFalse (fun hh => Except.noConfusion hh)

/-- Does an `Except` hold a normally returned value (no exception raised)? -/
def exceptIsOk {ε α : Type} : Except ε α → Bool
  | .ok _ => true
  | .error _ => false

/-- The `CommandInfo` value built at the top of `register`: name and aliases
are lowercased, everything else is stored as passed. -/
def mkCmdInfo (name : String) (handlerId : Nat) (description : String)
    (usage : String) (aliases : List String) (permission : PermissionLevel)
    (module : String) (hidden : Bool) (cooldown : Int) : CommandInfo :=
  { name := pyLower name
    handlerId := handlerId
    description := description
    usage := usage
    aliases := aliases.map pyLower
    permission := permission
    module := module
    hidden := hidden
    cooldown := cooldown }

/-- `CommandRegistry.register`.  Inserts/overwrites the canonical entry, points
every lowercased alias at the canonical name, and appends the name to the
module membership list. -/
def register (s : RegistryState) (name : String) (handlerId : Nat)
    (description : String) (usage : String) (aliases : List String)
    (permission : PermissionLevel) (module : String) (hidden : Bool)
    (cooldown : Int) : RegistryState :=
  let cmd_info : CommandInfo :=
    mkCmdInfo name handlerId description usage aliases permission module hidden cooldown
  let commands2 := dinsert s.commands (pyLower name) cmd_info
  let aliases2 := aliases.foldl (fun m a => dinsert m (pyLower a) (pyLower name)) s.aliases
  let modules2 :=
    if module ≠ "" then
      match dget s.modules module with
      | none => dinsert s.modules module [pyLower name]
      | some lst => dinsert s.modules module (lst ++ [pyLower name])
    else s.modules
  { commands := commands2, aliases := aliases2, cooldowns := s.cooldowns, modules := modules2 }

/-- `CommandRegistry.unregister`.  Returns `false` and leaves the state alone
when the lowercased name is not a canonical command; otherwise deletes the
canonical entry, deletes each alias listed in the stored spec that is present
in the alias map, and removes the name from its module membership list. -/
def unregister (s : RegistryState) (name : String) : Bool × RegistryState :=
  match dget s.commands (pyLower name) with
  | none => (false, s)
  | some cmd_info =>
    let aliases2 := cmd_info.aliases.foldl
      (fun m a => if (dget m a).isSome then derase m a else m) s.aliases
    let modules2 :=
      if cmd_info.module ≠ "" then
        match dget s.modules cmd_info.module with
        | some lst =>
          if pyLower name ∈ lst
          then dinsert s.modules cmd_info.module (lst.erase (pyLower name))
          else s.modules
        | none => s.modules
      else s.modules
    (true, { commands := derase s.commands (pyLower name), aliases := aliases2,
             cooldowns := s.cooldowns, modules := modules2 })

/-- `CommandRegistry.get_command`: canonical map first, then the alias map.
Following an alias whose target is absent raises `KeyError` (a dict subscript
without a membership guard in the source). -/
def get_command (s : RegistryState) (name : String) : Except PyErr (Option CommandInfo) :=
  match dget s.commands (pyLower name) with
  | some cmd_info => .ok (some cmd_info)
  | none =>
    match dget s.aliases (pyLower name) with
    | some target =>
      match dget s.commands target with
      | some cmd_info => .ok (some cmd_info)
      | none => .error (.keyError target)
    | none => .ok none

/-- Python `int()` applied to a rational: truncation toward zero. -/
def pyInt (q : ℚ) : Int :=
  if 0 ≤ q then q.floor else -((-q).floor)

/-- `CommandRegistry.check_cooldown` at an explicit current time `now`.
Returns `ok none` for "ready" and `ok (some r)` for `int(remaining)`. -/
def check_cooldown (s : RegistryState) (command : String) (username : String)
    (now : ℚ) : Except PyErr (Option Int) :=
  match get_command s command with
  | .error e => .error e
  | .ok none => .ok none
  | .ok (some cmd_info) =>
    if cmd_info.cooldown ≤ 0 then .ok none
    else
      match dget s.cooldowns cmd_info.name with
      | none => .ok none
      | some userMap =>
        match dget userMap (pyLower username) with
        | none => .ok none
        | some lastUse =>
          if (cmd_info.cooldown : ℚ) - (now - lastUse) ≤ 0 then .ok none
          else .ok (some (pyInt ((cmd_info.cooldown : ℚ) - (now - lastUse))))

/-- `CommandRegistry.set_cooldown` at an explicit current time `now`:
records `now` for `(canonical name, lowercased user)` unless the command is
unresolvable or has a non-positive cooldown. -/
def set_cooldown (s : RegistryState) (command : String) (username : String)
    (now : ℚ) : Except PyErr RegistryState :=
  match get_command s command with
  | .error e => .error e
  | .ok none => .ok s
  | .ok (some cmd_info) =>
    if cmd_info.cooldown ≤ 0 then .ok s
    else
      .ok { s with cooldowns :=
              (dinsert s.cooldowns cmd_info.name
                (dinsert ((dget s.cooldowns cmd_info.name).getD [])
                  (pyLower username) now)) }

/-! ### Dispatcher (`CommandRegistry.handle_command`)

The handler and the hooks are opaque callables; an invocation of one either
returns a value or raises.  Their behaviour during one dispatch is therefore
an input of the model: each pre-hook either returns a value (recording whether
it `is False`) or raises with a message, each post-hook either returns or
raises, and the handler either completes or raises. -/

/-- Outcome of calling one pre-command hook. -/
inductive HookOut
  | ret (isFalse : Bool)
  | err (msg : String)
deriving DecidableEq

/-- The pre-command hook loop: returns whether a hook cancelled the command
(returned `False`), and the log lines printed for raising hooks.  A raising
hook is logged and skipped; a cancelling hook stops the loop. -/
def runPreHooks : List HookOut → Bool × List String
  | [] => (false, [])
  | HookOut.ret b :: rest =>
    if b then (true, []) else runPreHooks rest
  | HookOut.err msg :: rest =>
    let r := runPreHooks rest
    (r.1, (s!"Pre-command hook error: {msg}") :: r.2)

/-- The post-command hook loop: every hook runs; raising hooks are logged. -/
def runPostHooks (hooks : List (Option String)) : List String :=
  hooks.filterMap (fun h => h.map (fun msg => s!"Post-command hook error: {msg}"))

/-- Everything observable about one dispatch: the handled/not-handled result,
the registry state afterwards, the chat replies sent, and the log lines. -/
structure DispatchOutcome where
  handled : Bool
  state : RegistryState
  replies : List String
  logs : List String
deriving DecidableEq

/-- The log line printed when the handler raises. -/
def commandErrorLog (name : String) (msg : String) : String :=
  s!"Command error ({name}): {msg}"

/-- The part of `handle_command` after the cooldown gate: pre-hooks, handler
execution, cooldown commit, post-hooks. -/
def execute_command (s : RegistryState) (cmd_info : CommandInfo)
    (preHooks : List HookOut) (postHooks : List (Option String))
    (command : String) (username : String) (handlerResult : Except String Unit)
    (now : ℚ) : Except PyErr DispatchOutcome :=
  if (runPreHooks preHooks).1 then
    .ok { handled := true, state := s, replies := [], logs := (runPreHooks preHooks).2 }
  else
    match handlerResult with
    | .error e =>
      .ok { handled := true, state := s
            replies := [s!"Error executing command: {e}"]
            logs := (runPreHooks preHooks).2 ++ [commandErrorLog cmd_info.name e] }
    | .ok _ =>
      match set_cooldown s command username now with
      | .error e2 => .error e2
      | .ok s2 =>
        .ok { handled := true, state := s2, replies := []
              logs := (runPreHooks preHooks).2 ++ runPostHooks postHooks }

/-- The cooldown gate of `handle_command` (`if remaining:` is falsy both for
`None` and for `0`), followed by `execute_command`. -/
def cooldown_gate (s : RegistryState) (cmd_info : CommandInfo)
    (preHooks : List HookOut) (postHooks : List (Option String))
    (command : String) (username : String) (handlerResult : Except String Unit)
    (now : ℚ) : Except PyErr DispatchOutcome :=
  match check_cooldown s command username now with
  | .error e => .error e
  | .ok (some remaining) =>
    if remaining ≠ 0 then
      .ok { handled := true, state := s
            replies := [s!"Command on cooldown. Wait {remaining}s."], logs := [] }
    else
      execute_command s cmd_info preHooks postHooks command username handlerResult now
  | .ok none =>
    execute_command s cmd_info preHooks postHooks command username handlerResult now

/-- `CommandRegistry.handle_command`: resolution, permission gate, cooldown
gate, then `execute_command`. -/
def handle_command (s : RegistryState) (adminUsers : List String)
    (preHooks : List HookOut) (postHooks : List (Option String))
    (command : String) (username : String) (handlerResult : Except String Unit)
    (now : ℚ) : Except PyErr DispatchOutcome :=
  match get_command s command with
  | .error e => .error e
  | .ok none => .ok { handled := false, state := s, replies := [], logs := [] }
  | .ok (some cmd_info) =>
    if check_permission adminUsers username cmd_info.permission then
      cooldown_gate s cmd_info preHooks postHooks command username handlerResult now
    else
      .ok { handled := true, state := s
            replies := ["You don't have permission to use this command."], logs := [] }

/-! ### Sequences of registry operations -/

/-- One mutating operation on the registry: a module registering a command, a
module unregistering one, or a successful dispatch committing a cooldown. -/
inductive RegOp
  | reg (name : String) (handlerId : Nat) (aliases : List String)
        (permission : PermissionLevel) (module : String) (cooldown : Int)
  | unreg (name : String)
  | commit (command : String) (username : String) (now : ℚ)
deriving DecidableEq

def applyOp (s : RegistryState) : RegOp → RegistryState
  | .reg n h as p m c => register s n h "" "" as p m false c
  | .unreg n => (unregister s n).2
  | .commit c u t =>
    match set_cooldown s c u t with
    | .ok s2 => s2
    | .error _ => s

def applyOps (s : RegistryState) (ops : List RegOp) : RegistryState :=
  ops.foldl applyOp s

/-- Does every `reg` of the sequence use a name that is fresh (no overwrite of
an existing canonical command) at the point it is applied? -/
def noOverwriteB : RegistryState → List RegOp → Bool
  | _, [] => true
  | s, op :: rest =>
    (match op with
     | RegOp.reg n _ _ _ _ _ => (dget s.commands (pyLower n)).isNone
     | _ => true) && noOverwriteB (applyOp s op) rest

/-! ### Invariants -/

/-- The spec's alias invariant: every alias entry points at a canonical
command currently present. -/
def AliasInv (s : RegistryState) : Prop :=
  ∀ y n, dget s.aliases y = some n → (dget s.commands n).isSome = true

/-- Executable form of `AliasInv` over the entries of the alias map. -/
def aliasInvB (s : RegistryState) : Bool :=
  s.aliases.all (fun p => (dget s.commands p.2).isSome)

/-- Inductive strengthening of `AliasInv`: every alias entry points at a
present command whose stored alias list contains that alias. -/
def StrongInv (s : RegistryState) : Prop :=
  ∀ y n, dget s.aliases y = some n →
    ∃ cmd, dget s.commands n = some cmd ∧ y ∈ cmd.aliases

/-- Executable form of the spec's cooldown-ledger invariant: every ledger
entry belongs to a currently registered command whose current cooldown is
positive. -/
def ledgerInvB (s : RegistryState) : Bool :=
  s.cooldowns.all (fun p =>
    match dget s.commands p.1 with
    | some cmd => decide (0 < cmd.cooldown)
    | none => false)

theorem aliasInv_of_b {s : RegistryState} (h : aliasInvB s = true) : AliasInv s := by
  intro y n hy
  have hm := dget_mem hy
  have := List.all_eq_true.mp h (y, n) hm
  exact this

theorem strongInv_empty : StrongInv emptyRegistry := by
  intro y n hy
  simp [emptyRegistry] at hy

theorem strongInv_aliasInv {s : RegistryState} (h : StrongInv s) : AliasInv s := by
  intro y n hy
  obtain ⟨cmd, hc, _⟩ := h y n hy
  simp [hc]

/-! ### Characterisations of the registry operations -/

theorem dget_alias_fold (as : List String) (m : Dict String) (target : String) (y : String) :
    dget (as.foldl (fun m a => dinsert m (pyLower a) target) m) y
      = if y ∈ as.map pyLower then some target else dget m y := by
  induction as generalizing m with
  | nil => simp
  | cons a rest ih =>
    simp only [List.foldl_cons, List.map_cons]
    rw [ih]
    by_cases h1 : y ∈ rest.map pyLower
    · rw [if_pos h1, if_pos (by simp [h1])]
    · rw [if_neg h1, dget_dinsert]
      by_cases h2 : y = pyLower a
      · rw [if_pos h2, if_pos (by simp [h2])]
      · rw [if_neg h2, if_neg (by simp [h1, h2])]

theorem dget_unreg_fold (as : List String) (m : Dict String) (y : String) :
    dget (as.foldl (fun m a => if (dget m a).isSome then derase m a else m) m) y
      = if y ∈ as then none else dget m y := by
  induction as generalizing m with
  | nil => simp
  | cons a rest ih =>
    simp only [List.foldl_cons]
    rw [ih]
    have hstep : dget (if (dget m a).isSome then derase m a else m) y
        = if y = a then none else dget m y := by
      by_cases hs : (dget m a).isSome
      · rw [if_pos hs, dget_derase]
      · rw [if_neg hs]
        by_cases h2 : y = a
        · subst h2
          rw [if_pos rfl]
          cases hd : dget m y
          · rfl
          · rw [hd] at hs; simp at hs
        · rw [if_neg h2]
    rw [hstep]
    by_cases h1 : y ∈ rest
    · rw [if_pos h1, if_pos (by simp [h1])]
    · rw [if_neg h1]
      by_cases h2 : y = a
      · rw [if_pos h2, if_pos (by simp [h2])]
      · rw [if_neg h2, if_neg (by simp [h1, h2])]

theorem register_commands (s : RegistryState) (name : String) (handlerId : Nat)
    (description : String) (usage : String) (aliases : List String)
    (permission : PermissionLevel) (module : String) (hidden : Bool)
    (cooldown : Int) (k : String) :
    dget (register s name handlerId description usage aliases permission module
            hidden cooldown).commands k
      = if k = pyLower name
        then some (mkCmdInfo name handlerId description usage aliases permission
                     module hidden cooldown)
        else dget s.commands k := by
  unfold register
  exact dget_dinsert _ _ _ _

theorem register_aliases (s : RegistryState) (name : String) (handlerId : Nat)
    (description : String) (usage : String) (aliases : List String)
    (permission : PermissionLevel) (module : String) (hidden : Bool)
    (cooldown : Int) (y : String) :
    dget (register s name handlerId description usage aliases permission module
            hidden cooldown).aliases y
      = if y ∈ aliases.map pyLower then some (pyLower name) else dget s.aliases y := by
  unfold register
  exact dget_alias_fold _ _ _ _

theorem register_cooldowns (s : RegistryState) (name : String) (handlerId : Nat)
    (description : String) (usage : String) (aliases : List String)
    (permission : PermissionLevel) (module : String) (hidden : Bool)
    (cooldown : Int) :
    (register s name handlerId description usage aliases permission module
       hidden cooldown).cooldowns = s.cooldowns := rfl

theorem unregister_not_found {s : RegistryState} {name : String}
    (h : dget s.commands (pyLower name) = none) :
    unregister s name = (false, s) := by
  unfold unregister
  rw [h]

theorem unregister_found {s : RegistryState} {name : String} {cmd : CommandInfo}
    (h : dget s.commands (pyLower name) = some cmd) :
    (unregister s name).1 = true
    ∧ (∀ k, dget (unregister s name).2.commands k
          = if k = pyLower name then none else dget s.commands k)
    ∧ (∀ y, dget (unregister s name).2.aliases y
          = if y ∈ cmd.aliases then none else dget s.aliases y)
    ∧ (unregister s name).2.cooldowns = s.cooldowns
    ∧ (cmd.module ≠ "" → ∀ lst, dget s.modules cmd.module = some lst →
         dget (unregister s name).2.modules cmd.module = some (lst.erase (pyLower name))) := by
  unfold unregister
  rw [h]
  refine ⟨rfl, ?_, ?_, rfl, ?_⟩
  · intro k
    exact dget_derase _ _ _
  · intro y
    exact dget_unreg_fold _ _ _
  · intro hm lst hlst
    simp only [if_pos hm, hlst]
    by_cases hmem : pyLower name ∈ lst
    · rw [if_pos hmem, dget_dinsert, if_pos rfl]
    · rw [if_neg hmem, hlst, List.erase_of_not_mem hmem]

theorem get_command_of_commands {s : RegistryState} {name : String} {cmd : CommandInfo}
    (h : dget s.commands (pyLower name) = some cmd) :
    get_command s name = .ok (some cmd) := by
  unfold get_command
  rw [h]

theorem get_command_via_alias {s : RegistryState} {name : String} {t : String}
    {cmd : CommandInfo} (h1 : dget s.commands (pyLower name) = none)
    (h2 : dget s.aliases (pyLower name) = some t)
    (h3 : dget s.commands t = some cmd) :
    get_command s name = .ok (some cmd) := by
  unfold get_command
  simp only [h1, h2, h3]

theorem get_command_ok_of_aliasInv {s : RegistryState} (hinv : AliasInv s)
    (name : String) : ∃ r, get_command s name = .ok r := by
  cases hc : dget s.commands (pyLower name) with
  | some cmd =>
    simp only [get_command, hc]
    exact ⟨some cmd, rfl⟩
  | none =>
    cases ha : dget s.aliases (pyLower name) with
    | none =>
      simp only [get_command, hc, ha]
      exact ⟨none, rfl⟩
    | some target =>
      have hb := hinv _ _ ha
      cases ht : dget s.commands target with
      | some cmd =>
        simp only [get_command, hc, ha, ht]
        exact ⟨some cmd, rfl⟩
      | none =>
        rw [ht] at hb
        simp at hb

/-! ### Preservation of the strengthened alias invariant -/

theorem strongInv_register_fresh {s : RegistryState} (hs : StrongInv s)
    {name : String} (hfresh : dget s.commands (pyLower name) = none)
    (handlerId : Nat) (description : String) (usage : String)
    (aliases : List String) (permission : PermissionLevel) (module : String)
    (hidden : Bool) (cooldown : Int) :
    StrongInv (register s name handlerId description usage aliases permission
                 module hidden cooldown) := by
  intro y n hy
  rw [register_aliases] at hy
  by_cases hmem : y ∈ aliases.map pyLower
  · rw [if_pos hmem] at hy
    obtain rfl := Option.some.inj hy
    refine ⟨mkCmdInfo name handlerId description usage aliases permission
              module hidden cooldown, ?_, ?_⟩
    · rw [register_commands, if_pos rfl]
    · simpa [mkCmdInfo] using hmem
  · rw [if_neg hmem] at hy
    obtain ⟨cmd, hc, hal⟩ := hs y n hy
    refine ⟨cmd, ?_, hal⟩
    rw [register_commands, if_neg ?_]
    · exact hc
    · intro hq
      rw [hq, hfresh] at hc
      cases hc

theorem strongInv_unregister {s : RegistryState} (hs : StrongInv s) (name : String) :
    StrongInv (unregister s name).2 := by
  cases hc : dget s.commands (pyLower name) with
  | none =>
    rw [unregister_not_found hc]
    exact hs
  | some cmd =>
    obtain ⟨-, hcom, hal, -, -⟩ := unregister_found hc
    intro y n hy
    rw [hal y] at hy
    by_cases hmem : y ∈ cmd.aliases
    · rw [if_pos hmem] at hy; cases hy
    · rw [if_neg hmem] at hy
      obtain ⟨cmd2, hc2, hal2⟩ := hs y n hy
      refine ⟨cmd2, ?_, hal2⟩
      rw [hcom n, if_neg ?_]
      · exact hc2
      · intro hq
        rw [hq, hc] at hc2
        obtain rfl := Option.some.inj hc2
        exact hmem hal2

theorem set_cooldown_fields {s s2 : RegistryState} {c u : String} {t : ℚ}
    (h : set_cooldown s c u t = .ok s2) :
    s2.commands = s.commands ∧ s2.aliases = s.aliases ∧ s2.modules = s.modules := by
  unfold set_cooldown at h
  split at h
  · exact Except.noConfusion h
  · obtain rfl := Except.ok.inj h
    exact ⟨rfl, rfl, rfl⟩
  · split at h
    · obtain rfl := Except.ok.inj h
      exact ⟨rfl, rfl, rfl⟩
    · obtain rfl := Except.ok.inj h
      exact ⟨rfl, rfl, rfl⟩

theorem strongInv_applyOp {s : RegistryState} {op : RegOp} (hs : StrongInv s)
    (hfresh : (match op with
               | RegOp.reg n _ _ _ _ _ => (dget s.commands (pyLower n)).isNone
               | _ => true) = true) :
    StrongInv (applyOp s op) := by
  cases op with
  | reg n h as p m c =>
    simp only [Option.isNone_iff_eq_none] at hfresh
    exact strongInv_register_fresh hs hfresh _ _ _ _ _ _ _ _
  | unreg n => exact strongInv_unregister hs n
  | commit c u t =>
    simp only [applyOp]
    cases hsc : set_cooldown s c u t with
    | error e => exact hs
    | ok s2 =>
      obtain ⟨hcom, hal, -⟩ := set_cooldown_fields hsc
      intro y n hy
      rw [hal] at hy
      obtain ⟨cmd, hcc, hmm⟩ := hs y n hy
      exact ⟨cmd, by rw [hcom]; exact hcc, hmm⟩

theorem strongInv_applyOps {s : RegistryState} (hs : StrongInv s) {ops : List RegOp}
    (hno : noOverwriteB s ops = true) : StrongInv (applyOps s ops) := by
  induction ops generalizing s with
  | nil => exact hs
  | cons op rest ih =>
    simp only [noOverwriteB, Bool.and_eq_true] at hno
    exact ih (strongInv_applyOp hs hno.1) hno.2

/-! ### Permission evaluator facts -/

theorem cp_owner_iff (adminUsers : List String) (username : String) :
    check_permission adminUsers username .OWNER = true
      ↔ adminUsers.head? = some (pyLower username) := by
  unfold check_permission
  cases adminUsers with
  | nil => simp
  | cons a0 rest =>
    show (pyLower username == a0) = true ↔ some a0 = some (pyLower username)
    rw [beq_iff_eq]
    constructor
    · intro h
      exact congrArg some h.symm
    · intro h
      exact (Option.some.inj h).symm

theorem cp_admin_iff (adminUsers : List String) (username : String) :
    check_permission adminUsers username .ADMIN = true ↔ pyLower username ∈ adminUsers := by
  show is_admin adminUsers (pyLower username) = true ↔ pyLower username ∈ adminUsers
  unfold is_admin
  rw [pyLower_idem]
  simp [List.contains]

theorem cp_trusted_eq_admin (adminUsers : List String) (username : String) :
    check_permission adminUsers username .TRUSTED
      = check_permission adminUsers username .ADMIN := rfl

theorem cp_registered (adminUsers : List String) (username : String) :
    check_permission adminUsers username .REGISTERED = true := rfl

theorem cp_everyone (adminUsers : List String) (username : String) :
    check_permission adminUsers username .EVERYONE = true := rfl

theorem cp_owner_imp_admin {adminUsers : List String} {username : String}
    (h : check_permission adminUsers username .OWNER = true) :
    check_permission adminUsers username .ADMIN = true := by
  rw [cp_admin_iff]
  rw [cp_owner_iff] at h
  cases adminUsers with
  | nil => cases h
  | cons a0 rest =>
    have ha := Option.some.inj h
    rw [← ha]
    exact List.mem_cons_self _ _

/-! ### Concrete registry states used in counterexamples and witnesses -/

/-- Register command `a` with alias `x` in an empty registry. -/
def sAx : RegistryState := register emptyRegistry "a" 0 "" "" ["x"] .EVERYONE "" false 0

/-- Then register command `b`, also claiming alias `x` (alias stolen). -/
def sAxB : RegistryState := register sAx "b" 1 "" "" ["x"] .EVERYONE "" false 0

/-! ### Claims -/

/-- C8 (confirmed).  `check_permission(username, OWNER)` holds exactly when the
admin list is non-empty and the lowercased username equals its first element;
`ADMIN` and `TRUSTED` hold exactly when the lowercased username is in the admin
list; `REGISTERED` and `EVERYONE` hold for every identity. -/
theorem C8_check_permission_characterisation (adminUsers : List String) (username : String) :
    (check_permission adminUsers username .OWNER = true
       ↔ adminUsers.head? = some (pyLower username))
    ∧ (check_permission adminUsers username .ADMIN = true ↔ pyLower username ∈ adminUsers)
    ∧ (check_permission adminUsers username .TRUSTED = true ↔ pyLower username ∈ adminUsers)
    ∧ check_permission adminUsers username .REGISTERED = true
    ∧ check_permission adminUsers username .EVERYONE = true := by
  refine ⟨cp_owner_iff adminUsers username, cp_admin_iff adminUsers username, ?_,
          cp_registered adminUsers username, cp_everyone adminUsers username⟩
  rw [cp_trusted_eq_admin]
  exact cp_admin_iff adminUsers username

/-- C10 (confirmed).  `check_permission` is monotone along the ordering
EVERYONE < REGISTERED < TRUSTED < ADMIN < OWNER: an identity satisfying a
higher required level satisfies every lower one. -/
theorem C10_check_permission_monotone (adminUsers : List String) (username : String)
    (L L' : PermissionLevel) (hord : L.toNat ≤ L'.toNat)
    (h : check_permission adminUsers username L' = true) :
    check_permission adminUsers username L = true := by
  cases L with
  | EVERYONE => exact cp_everyone adminUsers username
  | REGISTERED => exact cp_registered adminUsers username
  | TRUSTED =>
    rw [cp_trusted_eq_admin]
    cases L' with
    | EVERYONE => exact absurd hord (by decide)
    | REGISTERED => exact absurd hord (by decide)
    | TRUSTED => rw [← cp_trusted_eq_admin]; exact h
    | ADMIN => exact h
    | OWNER => exact cp_owner_imp_admin h
  | ADMIN =>
    cases L' with
    | EVERYONE => exact absurd hord (by decide)
    | REGISTERED => exact absurd hord (by decide)
    | TRUSTED => exact absurd hord (by decide)
    | ADMIN => exact h
    | OWNER => exact cp_owner_imp_admin h
  | OWNER =>
    cases L' with
    | EVERYONE => exact absurd hord (by decide)
    | REGISTERED => exact absurd hord (by decide)
    | TRUSTED => exact absurd hord (by decide)
    | ADMIN => exact absurd hord (by decide)
    | OWNER => exact h

/-- C10 witness: the first configured admin satisfies OWNER, hence ADMIN. -/
theorem C10_witness :
    PermissionLevel.toNat .ADMIN ≤ PermissionLevel.toNat .OWNER
    ∧ check_permission ["bong", "north"] "Bong" .OWNER = true
    ∧ check_permission ["bong", "north"] "Bong" .ADMIN = true :=
  ⟨by decide, by decide,
   C10_check_permission_monotone ["bong", "north"] "Bong" .ADMIN .OWNER
     (by decide) (by decide)⟩

/-- C5 counterexample.  Re-registering `a` (without aliases) over an existing
command `a` (with alias `x`) does NOT remove the old alias entry: `x` still
points at `a` afterwards, while the claim says that entry is removed. -/
theorem C5_counterexample :
    dget (register sAx "a" 1 "" "" [] .EVERYONE "" false 0).aliases "x" = some "a"
    ∧ dget (register sAx "a" 1 "" "" [] .EVERYONE "" false 0).aliases "x" ≠ none := by
  decide

/-- C5 (amended).  `register` inserts/overwrites the canonical entry with the
lowercased spec, repoints each lowercased alias at the new canonical name
(silently overwriting prior owners), leaves every other alias entry — including
stale aliases of the overwritten command — unchanged, leaves the cooldown
ledger unchanged, and never fails: last write wins. -/
theorem C5_register_characterisation (s : RegistryState) (name : String)
    (handlerId : Nat) (description : String) (usage : String)
    (aliases : List String) (permission : PermissionLevel) (module : String)
    (hidden : Bool) (cooldown : Int) :
    (∀ k, dget (register s name handlerId description usage aliases permission
                  module hidden cooldown).commands k
        = if k = pyLower name
          then some (mkCmdInfo name handlerId description usage aliases permission
                       module hidden cooldown)
          else dget s.commands k)
    ∧ (∀ y, dget (register s name handlerId description usage aliases permission
                    module hidden cooldown).aliases y
        = if y ∈ aliases.map pyLower then some (pyLower name) else dget s.aliases y)
    ∧ (register s name handlerId description usage aliases permission
         module hidden cooldown).cooldowns = s.cooldowns :=
  ⟨register_commands s name handlerId description usage aliases permission module
     hidden cooldown,
   register_aliases s name handlerId description usage aliases permission module
     hidden cooldown,
   register_cooldowns s name handlerId description usage aliases permission module
     hidden cooldown⟩

/-- C6 counterexample.  After `a` (alias `x`) and then `b` (stealing alias
`x`), `Unregister("a")` deletes the alias entry `x -> b`, although that entry
points at a different command — the claim says such entries are unchanged. -/
theorem C6_counterexample :
    dget sAxB.aliases "x" = some "b"
    ∧ (unregister sAxB "a").1 = true
    ∧ dget (unregister sAxB "a").2.aliases "x" = none := by
  decide

/-- C6 (amended).  `Unregister(name)` returns false and changes nothing when
the lowercased name is not canonical; otherwise it returns true, removes the
canonical entry, removes exactly the alias entries whose KEY is listed in the
removed spec's stored alias list (regardless of which command they currently
point to — an entry pointing at another command is deleted too, and a stale
alias pointing at the removed command but absent from its list survives), and
removes the name from its module membership list. -/
theorem C6_unregister_characterisation (s : RegistryState) (name : String) :
    (dget s.commands (pyLower name) = none → unregister s name = (false, s))
    ∧ (∀ cmd, dget s.commands (pyLower name) = some cmd →
        (unregister s name).1 = true
        ∧ (∀ k, dget (unregister s name).2.commands k
              = if k = pyLower name then none else dget s.commands k)
        ∧ (∀ y, dget (unregister s name).2.aliases y
              = if y ∈ cmd.aliases then none else dget s.aliases y)
        ∧ (cmd.module ≠ "" → ∀ lst, dget s.modules cmd.module = some lst →
             dget (unregister s name).2.modules cmd.module
               = some (lst.erase (pyLower name)))) := by
  constructor
  · exact unregister_not_found
  · intro cmd h
    obtain ⟨h1, h2, h3, _, h5⟩ := unregister_found h
    exact ⟨h1, h2, h3, h5⟩

/-- C6 witness: concrete successful unregistration evaluated through the
characterisation. -/
theorem C6_witness :
    (unregister sAx "a").1 = true
    ∧ dget (unregister sAx "a").2.commands "a"
        = (if "a" = pyLower "a" then none else dget sAx.commands "a")
    ∧ dget (unregister sAx "a").2.aliases "x"
        = (if "x" ∈ (mkCmdInfo "a" 0 "" "" ["x"] .EVERYONE "" false 0).aliases
           then none else dget sAx.aliases "x") := by
  have h := (C6_unregister_characterisation sAx "a").2
    (mkCmdInfo "a" 0 "" "" ["x"] .EVERYONE "" false 0) (by decide)
  exact ⟨h.1, h.2.1 "a", h.2.2.1 "x"⟩

/-- C7 counterexample.  `a` is registered with alias set containing `x`, yet
`Resolve("x")` and `Resolve("a")` differ, because a later registration of `b`
silently re-pointed the alias `x`. -/
theorem C7_counterexample :
    dget sAxB.commands "a" = some (mkCmdInfo "a" 0 "" "" ["x"] .EVERYONE "" false 0)
    ∧ "x" ∈ (mkCmdInfo "a" 0 "" "" ["x"] .EVERYONE "" false 0).aliases
    ∧ get_command sAxB "x" ≠ get_command sAxB "a" := by
  decide

/-- C7 (amended).  Resolution is case-insensitive (strings with equal lowercase
forms resolve identically, and resolving a string equals resolving its
lowercase form).  Immediately after `Register(spec)`, `Resolve(spec.name)` and
`Resolve(a)` for every alias `a` of the spec return the newly registered spec,
provided the alias does not collide with a distinct canonical command name;
the equality can later be broken by another registration stealing the alias. -/
theorem C7_resolution_properties :
    (∀ (s : RegistryState) (n1 n2 : String), pyLower n1 = pyLower n2 →
       get_command s n1 = get_command s n2)
    ∧ (∀ (s : RegistryState) (n : String), get_command s n = get_command s (pyLower n))
    ∧ (∀ (s : RegistryState) (name : String) (handlerId : Nat)
         (description usage : String) (aliases : List String)
         (permission : PermissionLevel) (module : String) (hidden : Bool)
         (cooldown : Int) (a : String), a ∈ aliases →
         (pyLower a = pyLower name ∨ dget s.commands (pyLower a) = none) →
         get_command (register s name handlerId description usage aliases permission
                        module hidden cooldown) a
           = .ok (some (mkCmdInfo name handlerId description usage aliases permission
                          module hidden cooldown))
         ∧ get_command (register s name handlerId description usage aliases permission
                          module hidden cooldown) name
           = .ok (some (mkCmdInfo name handlerId description usage aliases permission
                          module hidden cooldown))) := by
  refine ⟨?_, ?_, ?_⟩
  · intro s n1 n2 h
    unfold get_command
    rw [h]
  · intro s n
    unfold get_command
    rw [pyLower_idem]
  · intro s name handlerId description usage aliases permission module hidden cooldown a hmem hside
    have hname : dget (register s name handlerId description usage aliases permission
                         module hidden cooldown).commands (pyLower name)
        = some (mkCmdInfo name handlerId description usage aliases permission
                  module hidden cooldown) := by
      rw [register_commands, if_pos rfl]
    refine ⟨?_, get_command_of_commands hname⟩
    by_cases heq : pyLower a = pyLower name
    · apply get_command_of_commands
      rw [register_commands, if_pos heq]
    · cases hside with
      | inl h => exact absurd h heq
      | inr hnone =>
        apply get_command_via_alias
        · rw [register_commands, if_neg heq]
          exact hnone
        · rw [register_aliases, if_pos (List.mem_map_of_mem pyLower hmem)]
        · exact hname

/-- C7 witness: a fresh registration with a non-colliding alias resolves to the
same spec under both names. -/
theorem C7_witness :
    get_command (register emptyRegistry "Echo" 0 "" "" ["Say"] .EVERYONE "" false 0) "Say"
      = .ok (some (mkCmdInfo "Echo" 0 "" "" ["Say"] .EVERYONE "" false 0))
    ∧ get_command (register emptyRegistry "Echo" 0 "" "" ["Say"] .EVERYONE "" false 0) "Echo"
      = .ok (some (mkCmdInfo "Echo" 0 "" "" ["Say"] .EVERYONE "" false 0)) :=
  C7_resolution_properties.2.2 emptyRegistry "Echo" 0 "" "" ["Say"] .EVERYONE "" false 0
    "Say" (by decide) (Or.inr (by decide))

/-- C4 counterexample.  The sequence Register("a", aliases=["x"]),
Register("a", no aliases), Unregister("a") leaves the alias entry `x -> a`
behind while removing the command `a`: a dangling alias, violating the claimed
invariant. -/
theorem C4_counterexample :
    dget (applyOps emptyRegistry
            [RegOp.reg "a" 0 ["x"] .EVERYONE "" 0,
             RegOp.reg "a" 1 [] .EVERYONE "" 0,
             RegOp.unreg "a"]).aliases "x" = some "a"
    ∧ dget (applyOps emptyRegistry
              [RegOp.reg "a" 0 ["x"] .EVERYONE "" 0,
               RegOp.reg "a" 1 [] .EVERYONE "" 0,
               RegOp.unreg "a"]).commands "a" = none
    ∧ ¬ AliasInv (applyOps emptyRegistry
            [RegOp.reg "a" 0 ["x"] .EVERYONE "" 0,
             RegOp.reg "a" 1 [] .EVERYONE "" 0,
             RegOp.unreg "a"]) := by
  refine ⟨by decide, by decide, fun h => ?_⟩
  have hx := h "x" "a" (by decide)
  rw [show dget (applyOps emptyRegistry
        [RegOp.reg "a" 0 ["x"] .EVERYONE "" 0,
         RegOp.reg "a" 1 [] .EVERYONE "" 0,
         RegOp.unreg "a"]).commands "a" = none from by decide] at hx
  exact Bool.noConfusion hx

/-- C4 (amended).  Starting from a state satisfying the strengthened alias
invariant (in particular the empty registry), every sequence of Register,
Unregister and cooldown-commit operations in which no Register overwrites an
existing canonical name preserves the alias invariant: every alias entry
points at a command currently present.  (With overwrites the invariant can
fail, see the counterexample.) -/
theorem C4_aliasInv_preserved_without_overwrite (s : RegistryState) (ops : List RegOp)
    (hs : StrongInv s) (hno : noOverwriteB s ops = true) :
    AliasInv (applyOps s ops) :=
  strongInv_aliasInv (strongInv_applyOps hs hno)

/-- C4 witness: a fresh registration sequence from the empty registry keeps
alias `x` pointing at a present command `b`. -/
theorem C4_witness :
    (dget (applyOps emptyRegistry [RegOp.reg "b" 0 ["x"] .EVERYONE "" 0]).commands
        "b").isSome = true :=
  C4_aliasInv_preserved_without_overwrite emptyRegistry
    [RegOp.reg "b" 0 ["x"] .EVERYONE "" 0] strongInv_empty (by decide) "x" "b" (by decide)

/-! ### Stage equations for the dispatcher and the cooldown tracker -/

theorem handle_command_resolved {s : RegistryState} {adminUsers : List String}
    {preHooks : List HookOut} {postHooks : List (Option String)}
    {c u : String} {hr : Except String Unit} {now : ℚ} {cmd : CommandInfo}
    (hres : get_command s c = .ok (some cmd)) :
    handle_command s adminUsers preHooks postHooks c u hr now
      = if check_permission adminUsers u cmd.permission then
          cooldown_gate s cmd preHooks postHooks c u hr now
        else
          .ok { handled := true, state := s
                replies := ["You don't have permission to use this command."]
                logs := [] } := by
  unfold handle_command
  rw [hres]

theorem cooldown_gate_ready {s : RegistryState} {cmd : CommandInfo}
    {preHooks : List HookOut} {postHooks : List (Option String)}
    {c u : String} {hr : Except String Unit} {now : ℚ}
    (hcool : check_cooldown s c u now = .ok none) :
    cooldown_gate s cmd preHooks postHooks c u hr now
      = execute_command s cmd preHooks postHooks c u hr now := by
  unfold cooldown_gate
  rw [hcool]

theorem execute_command_fault {s : RegistryState} {cmd : CommandInfo}
    {preHooks : List HookOut} {postHooks : List (Option String)}
    {c u : String} {now : ℚ} (e : String)
    (hpre : (runPreHooks preHooks).1 = false) :
    execute_command s cmd preHooks postHooks c u (.error e) now
      = .ok { handled := true, state := s
              replies := [s!"Error executing command: {e}"]
              logs := (runPreHooks preHooks).2 ++ [commandErrorLog cmd.name e] } := by
  unfold execute_command
  rw [if_neg (by simp [hpre])]

theorem execute_command_success {s s2 : RegistryState} {cmd : CommandInfo}
    {preHooks : List HookOut} {postHooks : List (Option String)}
    {c u : String} {now : ℚ}
    (hpre : (runPreHooks preHooks).1 = false)
    (hsc : set_cooldown s c u now = .ok s2) :
    execute_command s cmd preHooks postHooks c u (.ok ()) now
      = .ok { handled := true, state := s2, replies := []
              logs := (runPreHooks preHooks).2 ++ runPostHooks postHooks } := by
  unfold execute_command
  rw [if_neg (by simp [hpre]), hsc]

theorem check_cooldown_zero {s : RegistryState} {c u : String} {now : ℚ}
    {cmd : CommandInfo} (hres : get_command s c = .ok (some cmd))
    (hcd : cmd.cooldown ≤ 0) :
    check_cooldown s c u now = .ok none := by
  unfold check_cooldown
  split
  · rename_i e heq
    rw [hres] at heq
    exact Except.noConfusion heq
  · rfl
  · rename_i cmd2 heq
    rw [hres] at heq
    obtain rfl := Option.some.inj (Except.ok.inj heq)
    rw [if_pos hcd]

theorem check_cooldown_no_cmd_entry {s : RegistryState} {c u : String} {now : ℚ}
    {cmd : CommandInfo} (hres : get_command s c = .ok (some cmd))
    (hnone : dget s.cooldowns cmd.name = none) :
    check_cooldown s c u now = .ok none := by
  unfold check_cooldown
  split
  · rename_i e heq
    rw [hres] at heq
    exact Except.noConfusion heq
  · rfl
  · rename_i cmd2 heq
    rw [hres] at heq
    obtain rfl := Option.some.inj (Except.ok.inj heq)
    by_cases hcd : cmd.cooldown ≤ 0
    · rw [if_pos hcd]
    · rw [if_neg hcd]
      split
      · rfl
      · rename_i userMap heq2
        rw [hnone] at heq2
        exact Option.noConfusion heq2

theorem check_cooldown_no_user_entry {s : RegistryState} {c u : String} {now : ℚ}
    {cmd : CommandInfo} {um : Dict ℚ} (hres : get_command s c = .ok (some cmd))
    (hum : dget s.cooldowns cmd.name = some um)
    (hnone : dget um (pyLower u) = none) :
    check_cooldown s c u now = .ok none := by
  unfold check_cooldown
  split
  · rename_i e heq
    rw [hres] at heq
    exact Except.noConfusion heq
  · rfl
  · rename_i cmd2 heq
    rw [hres] at heq
    obtain rfl := Option.some.inj (Except.ok.inj heq)
    by_cases hcd : cmd.cooldown ≤ 0
    · rw [if_pos hcd]
    · rw [if_neg hcd]
      split
      · rfl
      · rename_i userMap heq2
        rw [hum] at heq2
        obtain rfl := Option.some.inj heq2
        split
        · rfl
        · rename_i lastUse heq3
          rw [hnone] at heq3
          exact Option.noConfusion heq3

theorem check_cooldown_entry {s : RegistryState} {c u : String} {now : ℚ}
    {cmd : CommandInfo} {um : Dict ℚ} {t0 : ℚ}
    (hres : get_command s c = .ok (some cmd)) (hpos : 0 < cmd.cooldown)
    (hum : dget s.cooldowns cmd.name = some um)
    (ht0 : dget um (pyLower u) = some t0) :
    check_cooldown s c u now
      = if (cmd.cooldown : ℚ) - (now - t0) ≤ 0 then .ok none
        else .ok (some (pyInt ((cmd.cooldown : ℚ) - (now - t0)))) := by
  unfold check_cooldown
  split
  · rename_i e heq
    rw [hres] at heq
    exact Except.noConfusion heq
  · rename_i heq
    rw [hres] at heq
    exact Option.noConfusion (Except.ok.inj heq)
  · rename_i cmd2 heq
    rw [hres] at heq
    obtain rfl := Option.some.inj (Except.ok.inj heq)
    rw [if_neg (not_le.mpr hpos)]
    split
    · rename_i heq2
      rw [hum] at heq2
      exact Option.noConfusion heq2
    · rename_i userMap heq2
      rw [hum] at heq2
      obtain rfl := Option.some.inj heq2
      split
      · rename_i heq3
        rw [ht0] at heq3
        exact Option.noConfusion heq3
      · rename_i lastUse heq3
        rw [ht0] at heq3
        obtain rfl := Option.some.inj heq3
        rfl

theorem set_cooldown_not_found {s : RegistryState} {c u : String} {t : ℚ}
    (hres : get_command s c = .ok none) :
    set_cooldown s c u t = .ok s := by
  unfold set_cooldown
  split
  · rename_i e heq
    rw [hres] at heq
    exact Except.noConfusion heq
  · rfl
  · rename_i cmd2 heq
    rw [hres] at heq
    exact Option.noConfusion (Except.ok.inj heq)

theorem set_cooldown_zero {s : RegistryState} {c u : String} {t : ℚ}
    {cmd : CommandInfo} (hres : get_command s c = .ok (some cmd))
    (hcd : cmd.cooldown ≤ 0) :
    set_cooldown s c u t = .ok s := by
  unfold set_cooldown
  split
  · rename_i e heq
    rw [hres] at heq
    exact Except.noConfusion heq
  · rfl
  · rename_i cmd2 heq
    rw [hres] at heq
    obtain rfl := Option.some.inj (Except.ok.inj heq)
    rw [if_pos hcd]

theorem set_cooldown_commit {s : RegistryState} {c u : String} {t : ℚ}
    {cmd : CommandInfo} (hres : get_command s c = .ok (some cmd))
    (hpos : 0 < cmd.cooldown) :
    set_cooldown s c u t
      = .ok { s with cooldowns :=
                (dinsert s.cooldowns cmd.name
                  (dinsert ((dget s.cooldowns cmd.name).getD []) (pyLower u) t)) } := by
  unfold set_cooldown
  split
  · rename_i e heq
    rw [hres] at heq
    exact Except.noConfusion heq
  · rename_i heq
    rw [hres] at heq
    exact Option.noConfusion (Except.ok.inj heq)
  · rename_i cmd2 heq
    rw [hres] at heq
    obtain rfl := Option.some.inj (Except.ok.inj heq)
    rw [if_neg (not_le.mpr hpos)]

theorem check_cooldown_ok_of_aliasInv {s : RegistryState} (hinv : AliasInv s)
    (c u : String) (now : ℚ) : ∃ r, check_cooldown s c u now = .ok r := by
  unfold check_cooldown
  split
  · rename_i e heq
    obtain ⟨r, hg⟩ := get_command_ok_of_aliasInv hinv c
    rw [hg] at heq
    exact Except.noConfusion heq
  · exact ⟨none, rfl⟩
  · split
    · exact ⟨none, rfl⟩
    · split
      · exact ⟨none, rfl⟩
      · split
        · exact ⟨none, rfl⟩
        · split
          · exact ⟨none, rfl⟩
          · exact ⟨_, rfl⟩

theorem set_cooldown_ok_of_aliasInv {s : RegistryState} (hinv : AliasInv s)
    (c u : String) (t : ℚ) : ∃ s2, set_cooldown s c u t = .ok s2 := by
  unfold set_cooldown
  split
  · rename_i e heq
    obtain ⟨r, hg⟩ := get_command_ok_of_aliasInv hinv c
    rw [hg] at heq
    exact Except.noConfusion heq
  · exact ⟨s, rfl⟩
  · split
    · exact ⟨s, rfl⟩
    · exact ⟨_, rfl⟩

theorem execute_command_isOk {s : RegistryState} (hinv : AliasInv s)
    (cmd : CommandInfo) (preHooks : List HookOut) (postHooks : List (Option String))
    (c u : String) (hr : Except String Unit) (now : ℚ) :
    exceptIsOk (execute_command s cmd preHooks postHooks c u hr now) = true := by
  unfold execute_command
  split
  · rfl
  · split
    · rfl
    · split
      · rename_i e2 heq
        obtain ⟨s2, hsc⟩ := set_cooldown_ok_of_aliasInv hinv c u now
        rw [hsc] at heq
        exact Except.noConfusion heq
      · rfl

theorem cooldown_gate_isOk {s : RegistryState} (hinv : AliasInv s)
    (cmd : CommandInfo) (preHooks : List HookOut) (postHooks : List (Option String))
    (c u : String) (hr : Except String Unit) (now : ℚ) :
    exceptIsOk (cooldown_gate s cmd preHooks postHooks c u hr now) = true := by
  unfold cooldown_gate
  split
  · rename_i e heq
    obtain ⟨r, hcc⟩ := check_cooldown_ok_of_aliasInv hinv c u now
    rw [hcc] at heq
    exact Except.noConfusion heq
  · split
    · rfl
    · exact execute_command_isOk hinv cmd preHooks postHooks c u hr now
  · exact execute_command_isOk hinv cmd preHooks postHooks c u hr now

/-! ### Further concrete states -/

/-- `f` with a 30s-free cooldown of 5 seconds, committed for `u` at time 0. -/
def sF : RegistryState :=
  applyOps emptyRegistry
    [RegOp.reg "f" 0 [] .EVERYONE "" 5, RegOp.commit "f" "u" 0]

/-- `f` registered with cooldown 0 (no cooldown). -/
def sF0 : RegistryState := register emptyRegistry "f" 0 "" "" [] .EVERYONE "" false 0

/-- A reachable state with a dangling alias: register `a` with alias `x`,
overwrite `a` without aliases, then unregister `a`. -/
def sDangling : RegistryState :=
  applyOps emptyRegistry
    [RegOp.reg "a" 0 ["x"] .EVERYONE "" 0,
     RegOp.reg "a" 1 [] .EVERYONE "" 0,
     RegOp.unreg "a"]

/-- A reachable state with a stale ledger entry: commit a cooldown for `f`
(cooldown 5), then re-register `f` with cooldown 0. -/
def sG : RegistryState :=
  applyOps emptyRegistry
    [RegOp.reg "f" 0 [] .EVERYONE "" 5,
     RegOp.commit "f" "u" 0,
     RegOp.reg "f" 1 [] .EVERYONE "" 0]

/-- C1 counterexample.  In the reachable state `sDangling` the dispatcher
raises an uncaught `KeyError` while resolving the typed command `x`: the
failure is neither converted into a chat reply nor into a log entry, so the
claim that no failure ever propagates to the caller is false. -/
theorem C1_counterexample :
    handle_command sDangling [] [] [] "x" "u" (.ok ()) 0
      = .error (PyErr.keyError "a") := by
  decide

/-- C1 (amended).  Provided every alias entry points at a present command (no
dangling alias — which `Register`-overwrite followed by `Unregister` can
break), `handle_command` always returns a handled/not-handled outcome and
never propagates an exception, for every handler outcome, every hook
behaviour, every permission configuration and every time. -/
theorem C1_dispatch_total (s : RegistryState) (hinv : AliasInv s)
    (adminUsers : List String) (preHooks : List HookOut)
    (postHooks : List (Option String)) (c u : String)
    (hr : Except String Unit) (now : ℚ) :
    exceptIsOk (handle_command s adminUsers preHooks postHooks c u hr now) = true := by
  unfold handle_command
  split
  · rename_i e heq
    obtain ⟨r, hg⟩ := get_command_ok_of_aliasInv hinv c
    rw [hg] at heq
    exact Except.noConfusion heq
  · rfl
  · rename_i cmd heq
    split
    · exact cooldown_gate_isOk hinv cmd preHooks postHooks c u hr now
    · rfl

/-- C1 witness: dispatch of a failing handler in a clean state completes
without raising. -/
theorem C1_witness :
    exceptIsOk (handle_command sF [] [] [] "f" "u" (.error "boom") 7) = true :=
  C1_dispatch_total sF (aliasInv_of_b (by decide)) [] [] [] "f" "u" (.error "boom") 7

/-- C2 (confirmed).  When the command resolves, the permission and cooldown
gates pass and no pre-hook cancels: a handler fault yields handled = true, a
single failure reply, unchanged state (so an immediately subsequent Check is
still ready), and the cooldown is committed only on handler success. -/
theorem C2_handler_fault_no_commit (s : RegistryState) (adminUsers : List String)
    (preHooks : List HookOut) (postHooks : List (Option String))
    (c u : String) (now : ℚ) (cmd : CommandInfo) (e : String)
    (hres : get_command s c = .ok (some cmd))
    (hperm : check_permission adminUsers u cmd.permission = true)
    (hcool : check_cooldown s c u now = .ok none)
    (hpre : (runPreHooks preHooks).1 = false) :
    handle_command s adminUsers preHooks postHooks c u (.error e) now
      = .ok { handled := true, state := s
              replies := [s!"Error executing command: {e}"]
              logs := (runPreHooks preHooks).2 ++ [commandErrorLog cmd.name e] }
    ∧ check_cooldown s c u now = .ok none
    ∧ (∀ s2, set_cooldown s c u now = .ok s2 →
         handle_command s adminUsers preHooks postHooks c u (.ok ()) now
           = .ok { handled := true, state := s2, replies := []
                   logs := (runPreHooks preHooks).2 ++ runPostHooks postHooks }) := by
  refine ⟨?_, hcool, ?_⟩
  · rw [handle_command_resolved hres, if_pos hperm, cooldown_gate_ready hcool,
        execute_command_fault e hpre]
  · intro s2 hsc
    rw [handle_command_resolved hres, if_pos hperm, cooldown_gate_ready hcool,
        execute_command_success hpre hsc]

/-- C2 witness: a failing handler on `f` leaves the registry untouched and
returns handled, while a succeeding handler returns the committed state. -/
theorem C2_witness :
    handle_command sF0 [] [] [] "f" "u" (.error "boom") 0
      = .ok { handled := true, state := sF0
              replies := ["Error executing command: boom"]
              logs := ["Command error (f): boom"] }
    ∧ check_cooldown sF0 "f" "u" 0 = .ok none
    ∧ handle_command sF0 [] [] [] "f" "u" (.ok ()) 0
        = .ok { handled := true, state := sF0, replies := [], logs := [] } := by
  have h := C2_handler_fault_no_commit sF0 [] [] [] "f" "u" 0
    (mkCmdInfo "f" 0 "" "" [] .EVERYONE "" false 0) "boom"
    (by decide) (by decide) (by decide) (by decide)
  exact ⟨h.1.trans (by decide), h.2.1, (h.2.2 sF0 (by decide)).trans (by decide)⟩

/-- C3 counterexample.  With cooldown 5 committed at time 0, Check at time 5/2
returns 2 (Python `int()` truncation), while the claimed formula
`ceil(C - (t - t0))` gives 3. -/
theorem C3_counterexample :
    check_cooldown sF "f" "u" (Rat.divInt 5 2) = .ok (some 2)
    ∧ (2 : ℤ) ≠ ⌈(5 : ℚ) - (Rat.divInt 5 2 - 0)⌉ := by
  constructor
  · decide
  · have h1 : ((5 : ℚ) - (Rat.divInt 5 2 - 0)) = Rat.divInt 5 2 := by decide
    have h0 : (Rat.divInt 5 2 : ℚ) = 5 / 2 := by
      rw [Rat.divInt_eq_div]
      norm_num
    rw [h1, h0]
    have h2 : ⌈(5 : ℚ) / 2⌉ = 3 := by
      rw [Int.ceil_eq_iff]
      norm_num
    omega

/-- C3 (amended).  Check returns ready when the cooldown is non-positive, when
the command has no ledger entry, or when the user has none.  Commit at `t0`
records `t0` for the pair.  With a recorded `t0` and cooldown `C > 0`, Check
at `t` in `[t0, t0+C)` returns the TRUNCATION `floor(C - (t - t0))` — not the
claimed ceiling — which is a non-negative (possibly zero, not strictly
positive) number of seconds; Check at `t >= t0 + C` returns ready. -/
theorem C3_check_cooldown_floor (s : RegistryState) (c u : String)
    (cmd : CommandInfo) (hres : get_command s c = .ok (some cmd)) :
    (∀ now : ℚ, cmd.cooldown ≤ 0 → check_cooldown s c u now = .ok none)
    ∧ (∀ now : ℚ, dget s.cooldowns cmd.name = none →
         check_cooldown s c u now = .ok none)
    ∧ (∀ (now : ℚ) (um : Dict ℚ), dget s.cooldowns cmd.name = some um →
         dget um (pyLower u) = none → check_cooldown s c u now = .ok none)
    ∧ (0 < cmd.cooldown → ∀ t0 : ℚ, ∃ s2, set_cooldown s c u t0 = .ok s2
         ∧ ∃ um2, dget s2.cooldowns cmd.name = some um2
             ∧ dget um2 (pyLower u) = some t0)
    ∧ (∀ (t t0 : ℚ) (um : Dict ℚ), 0 < cmd.cooldown →
         dget s.cooldowns cmd.name = some um → dget um (pyLower u) = some t0 →
         t0 ≤ t → t < t0 + (cmd.cooldown : ℚ) →
         check_cooldown s c u t = .ok (some (((cmd.cooldown : ℚ) - (t - t0)).floor))
         ∧ 0 ≤ ((cmd.cooldown : ℚ) - (t - t0)).floor)
    ∧ (∀ (t t0 : ℚ) (um : Dict ℚ), 0 < cmd.cooldown →
         dget s.cooldowns cmd.name = some um → dget um (pyLower u) = some t0 →
         t0 + (cmd.cooldown : ℚ) ≤ t → check_cooldown s c u t = .ok none) := by
  refine ⟨?_, ?_, ?_, ?_, ?_, ?_⟩
  · intro now hcd
    exact check_cooldown_zero hres hcd
  · intro now hn
    exact check_cooldown_no_cmd_entry hres hn
  · intro now um hum hn
    exact check_cooldown_no_user_entry hres hum hn
  · intro hpos t0
    refine ⟨_, set_cooldown_commit hres hpos,
      ⟨dinsert ((dget s.cooldowns cmd.name).getD []) (pyLower u) t0, ?_, ?_⟩⟩
    · show dget (dinsert s.cooldowns cmd.name
          (dinsert ((dget s.cooldowns cmd.name).getD []) (pyLower u) t0))
          cmd.name = _
      rw [dget_dinsert, if_pos rfl]
    · rw [dget_dinsert, if_pos rfl]
  · intro t t0 um hpos hum ht0 hle hlt
    have hlt2 : ¬((cmd.cooldown : ℚ) - (t - t0) ≤ 0) := by
      intro hc
      linarith
    constructor
    · rw [check_cooldown_entry hres hpos hum ht0, if_neg hlt2]
      unfold pyInt
      rw [if_pos (le_of_lt (not_le.mp hlt2))]
    · exact Rat.le_floor.mpr (by push_cast; linarith [not_le.mp hlt2])
  · intro t t0 um hpos hum ht0 hge
    rw [check_cooldown_entry hres hpos hum ht0, if_pos (by linarith)]

/-- C3 witness: cooldown 5 committed at 0, queried at 5/2 (floor applies) and
at 7 (ready). -/
theorem C3_witness :
    check_cooldown sF "f" "u" (Rat.divInt 5 2)
      = .ok (some ((((mkCmdInfo "f" 0 "" "" [] .EVERYONE "" false 5).cooldown : ℚ)
                      - (Rat.divInt 5 2 - 0)).floor))
    ∧ check_cooldown sF "f" "u" 7 = .ok none := by
  have h := C3_check_cooldown_floor sF "f" "u"
    (mkCmdInfo "f" 0 "" "" [] .EVERYONE "" false 5) (by decide)
  refine ⟨(h.2.2.2.2.1 (Rat.divInt 5 2) 0 [("u", 0)] (by decide) (by decide)
            (by decide) (by decide) (by decide)).1, ?_⟩
  exact h.2.2.2.2.2 7 0 [("u", 0)] (by decide) (by decide) (by decide) (by decide)

/-- C9 counterexample.  In the reachable state `sG` the ledger still holds the
entry for `(f, u)` although `f`'s current cooldown is 0 (it was re-registered
after the commit): the claimed cooldown-ledger invariant fails. -/
theorem C9_counterexample :
    dget sG.cooldowns "f" = some [("u", 0)]
    ∧ dget sG.commands "f" = some (mkCmdInfo "f" 1 "" "" [] .EVERYONE "" false 0)
    ∧ ledgerInvB sG = false := by
  decide

/-- C9 (amended).  Commit is a no-op when the command is unresolvable or its
cooldown is non-positive (so a commit never creates a zero-cooldown entry),
and any state change of Commit installs exactly one entry for the resolved
command's canonical name and the lowercased user, with the command's cooldown
positive AT COMMIT TIME; the claimed invariant over current cooldowns can be
broken afterwards by re-registration (see the counterexample). -/
theorem C9_commit_noop_and_entry_provenance :
    (∀ (s : RegistryState) (c u : String) (t : ℚ),
       get_command s c = .ok none → set_cooldown s c u t = .ok s)
    ∧ (∀ (s : RegistryState) (c u : String) (t : ℚ) (cmd : CommandInfo),
         get_command s c = .ok (some cmd) → cmd.cooldown ≤ 0 →
         set_cooldown s c u t = .ok s)
    ∧ (∀ (s s2 : RegistryState) (c u : String) (t : ℚ),
         set_cooldown s c u t = .ok s2 → s2 ≠ s →
         ∃ cmd, get_command s c = .ok (some cmd) ∧ 0 < cmd.cooldown
           ∧ s2.cooldowns = dinsert s.cooldowns cmd.name
               (dinsert ((dget s.cooldowns cmd.name).getD []) (pyLower u) t)) := by
  refine ⟨?_, ?_, ?_⟩
  · intro s c u t h
    exact set_cooldown_not_found h
  · intro s c u t cmd h hcd
    exact set_cooldown_zero h hcd
  · intro s s2 c u t h hne
    unfold set_cooldown at h
    split at h
    · exact Except.noConfusion h
    · exact absurd (Except.ok.inj h).symm hne
    · rename_i cmd heq
      split at h
      · exact absurd (Except.ok.inj h).symm hne
      · rename_i hcd
        refine ⟨cmd, heq, lt_of_not_le hcd, ?_⟩
        rw [← Except.ok.inj h]

/-- C9 witness: committing a zero-cooldown command changes nothing. -/
theorem C9_witness :
    set_cooldown sF0 "f" "u" 3 = .ok sF0 :=
  C9_commit_noop_and_entry_provenance.2.1 sF0 "f" "u" 3
    (mkCmdInfo "f" 0 "" "" [] .EVERYONE "" false 0) (by decide) (by decide)

end ManestreamBot
